import Mathlib

/-!
# Shallow embedding of `juniper-relay` (src/src/lib.rs)

Relay-style pagination for Juniper. The embedding models:

* the `RelayConnectionNode` trait (cursor extraction and the cursor's
  `ToString`/`FromStr` text conversions) as a structure of operations;
* `FieldResult` as `Except String` (a `FieldError` is modelled by its
  message text);
* machine integers: `i64` values are `Int`s, with the wrap-around of
  `i64` addition made explicit (`i64_add`), and the fallible
  `usize -> i64` / `i64 -> usize` conversions (`try_into`) made explicit
  (`usize_to_i64`, `i64_to_usize`), carrying the `TryFromIntError`
  display text;
* `RelayConnection::closure_args`, `build_connection`, `new`,
  `new_async` and `empty`, and the free function `leq_zero`, translated
  line by line. The async loader is modelled as a pure function; the
  single `.await` in `new_async` is the identity in this embedding.
-/

/-- Model of `FieldResult<T>` from juniper: success or an error carrying a message. -/
abbrev FieldResult (α : Type) := Except String α

/-- The `RelayConnectionNode` trait: a node exposes a cursor; the cursor
type supports `ToString` (`toString`) and `FromStr` (`fromStr`, whose
error is rendered through `Display` into the message text), plus the two
static type-name strings. -/
structure RelayConnectionNode (N : Type) (C : Type) where
  cursor : N → C
  toString : C → String
  fromStr : String → Except String C
  connection_type_name : String
  edge_type_name : String

/-- Model of `RelayConnectionEdge<N>`: a node plus its cursor rendered as text. -/
structure RelayConnectionEdge (N : Type) where
  node : N
  cursor : String
  deriving Repr, DecidableEq

/-- Model of `RelayConnectionPageInfo`. -/
structure RelayConnectionPageInfo where
  has_previous_page : Bool
  has_next_page : Bool
  start_cursor : Option String
  end_cursor : Option String
  deriving Repr, DecidableEq

/-- Model of `RelayConnection<N>`: the edges plus the page info. -/
structure RelayConnection (N : Type) where
  edges : List (RelayConnectionEdge N)
  page_info : RelayConnectionPageInfo
  deriving Repr, DecidableEq

/-- Model of `fn leq_zero(val: i64) -> Result<i64, &'static str>`. -/
def leq_zero (val : Int) : Except String Int :=
  if val < 0 then
    Except.error "Pagination argument must be positive"
  else
    Except.ok val

/-- Wrap an unbounded integer into the `i64` range, as two's-complement
`i64` arithmetic does on overflow. -/
def i64_wrap (v : Int) : Int :=
  (v + 2 ^ 63) % 2 ^ 64 - 2 ^ 63

/-- Addition of `i64` values (wrapping on overflow). -/
def i64_add (a b : Int) : Int :=
  i64_wrap (a + b)

/-- Conversion `usize -> i64` via `TryInto` (`edges.len().try_into()?`): fails when
the length exceeds `i64::MAX`. Rust renders the failure through
`TryFromIntError`'s `Display`. -/
def usize_to_i64 (n : Nat) : Except String Int :=
  if n ≤ 2 ^ 63 - 1 then
    Except.ok (n : Int)
  else
    Except.error "out of range integral type conversion attempted"

/-- Conversion `i64 -> usize` via `TryInto` (`first.try_into()?`, `skip.try_into()?`):
fails when the value is negative (an `i64` never exceeds `usize::MAX`). -/
def i64_to_usize (v : Int) : Except String Nat :=
  if v < 0 then
    Except.error "out of range integral type conversion attempted"
  else
    Except.ok v.toNat

namespace RelayConnection

variable {N C : Type}

/-- Model of `RelayConnection::closure_args`: decode `after`/`before` through the
cursor's `FromStr` (the first failure aborts, its `Display` text becoming
the error message) and derive `limit = first.map(|l| l + 1)` in `i64`
arithmetic. -/
def closure_args (inst : RelayConnectionNode N C) (first : Option Int)
    (after : Option String) (before : Option String) :
    FieldResult (Option C × Option C × Option Int) := do
  let after ← after.mapM inst.fromStr
  let before ← before.mapM inst.fromStr
  let limit := first.map (fun l => i64_add l 1)
  Except.ok (after, before, limit)

/-- Model of `RelayConnection::build_connection`: the windowing algorithm. The
candidate length is converted to `i64`, the two page-info flags are
computed against the raw length, then the list is truncated with
`take(first)` and the leading `skip = max(0, min(len, first) - last)`
records are dropped; each survivor becomes an edge with its cursor
rendered via `ToString`. -/
def build_connection (inst : RelayConnectionNode N C) (first : Option Int)
    (last : Option Int) (edges : List N) :
    FieldResult (RelayConnection N) := do
  let edges_len : Int ← usize_to_i64 edges.length
  let has_previous_page : Bool :=
    match last with
    | some last => decide (edges_len > last)
    | none => false
  let has_next_page : Bool :=
    match first with
    | some first => decide (edges_len > first)
    | none => false
  let first : Int := first.getD edges_len
  let last : Int := last.getD edges_len
  let len_after_take : Int := min edges_len first
  let skip : Int := max 0 (len_after_take - last)
  let takeN : Nat ← i64_to_usize first
  let skipN : Nat ← i64_to_usize skip
  let edges : List (RelayConnectionEdge N) :=
    ((edges.take takeN).drop skipN).map
      (fun node => { cursor := inst.toString (inst.cursor node), node })
  Except.ok
    { page_info :=
        { has_previous_page
          has_next_page
          start_cursor := edges.head?.map (fun edge => edge.cursor)
          end_cursor := edges.getLast?.map (fun edge => edge.cursor) }
      edges }

/-- Model of `RelayConnection::new`: validate `first`/`last` through `leq_zero`
(after the `i32 -> i64` widening, which in this embedding is the
identity on `Int`), decode the cursors and derive the limit, invoke the
loader, then build the connection. -/
def new (inst : RelayConnectionNode N C) (first : Option Int)
    (after : Option String) (last : Option Int) (before : Option String)
    (load : Option C → Option C → Option Int → FieldResult (List N)) :
    FieldResult (RelayConnection N) := do
  let first ← first.mapM leq_zero
  let last ← last.mapM leq_zero
  let (after, before, limit) ← closure_args inst first after before
  let edges ← load after before limit
  build_connection inst first last edges

/-- Model of `RelayConnection::new_async`: identical to `new` except that the
loader's result is awaited; in the pure embedding the future is its
value and `.await` is the identity. -/
def new_async (inst : RelayConnectionNode N C) (first : Option Int)
    (after : Option String) (last : Option Int) (before : Option String)
    (load : Option C → Option C → Option Int → FieldResult (List N)) :
    FieldResult (RelayConnection N) := do
  let first ← first.mapM leq_zero
  let last ← last.mapM leq_zero
  let (after, before, limit) ← closure_args inst first after before
  let edges ← load after before limit
  build_connection inst first last edges

/-- Model of `RelayConnection::empty`: a connection with no elements. -/
def empty : RelayConnection N :=
  { edges := []
    page_info :=
      { has_previous_page := false
        has_next_page := false
        start_cursor := none
        end_cursor := none } }

end RelayConnection

/-! ## The concrete `i32` cursor type

The repository's doc example (`Foo`) and its test module (`FakeNode`)
both use `type Cursor = i32`. The `ToString`/`FromStr` implementations
for `i32` live in Rust's standard library; they are modelled here as
decimal rendering and sign-aware decimal parsing with `i32` range
checks, the error messages being those produced by
`core::num::ParseIntError`'s `Display`. -/

deriving instance DecidableEq for Except

/-- Big-endian decimal digit characters of a natural number, with
structural fuel so that the kernel can evaluate it; `fuel > n` always
suffices. -/
def natDecimalDigitsGo : Nat → Nat → List Char
  | 0, _ => []
  | fuel + 1, n =>
    if n < 10 then
      [Nat.digitChar n]
    else
      natDecimalDigitsGo fuel (n / 10) ++ [Nat.digitChar (n % 10)]

/-- Big-endian decimal digit characters of a natural number. -/
def natDecimalDigits (n : Nat) : List Char :=
  natDecimalDigitsGo (n + 1) n

/-- The numeric value of a decimal digit character, or `none`. -/
def digitVal (c : Char) : Option Nat :=
  if '0' ≤ c ∧ c ≤ '9' then some (c.toNat - 48) else none

/-- Fold decimal digit characters onto an accumulator; `none` at the
first non-digit. -/
def parseNatDigits : List Char → Nat → Option Nat
  | [], acc => some acc
  | c :: rest, acc =>
    match digitVal c with
    | some d => parseNatDigits rest (acc * 10 + d)
    | none => none

/-- Models `<i32 as ToString>::to_string` (via `Display`): decimal
digits, prefixed with `-` when negative. -/
def i32ToString (v : Int) : String :=
  if v < 0 then
    String.mk ('-' :: natDecimalDigits v.natAbs)
  else
    String.mk (natDecimalDigits v.toNat)

/-- Models `<i32 as FromStr>::from_str`: an empty string is rejected,
an optional leading sign is stripped, the remaining characters must be
decimal digits, and the value must fit the `i32` range; error values are
the `Display` renderings of `core::num::ParseIntError`. -/
def i32FromStr (s : String) : Except String Int :=
  match s.data with
  | [] => Except.error "cannot parse integer from empty string"
  | cs =>
    let stripped : Bool × List Char :=
      match cs with
      | '-' :: rest => (true, rest)
      | '+' :: rest => (false, rest)
      | other => (false, other)
    match stripped with
    | (_, []) => Except.error "invalid digit found in string"
    | (isNeg, d :: ds) =>
      match parseNatDigits (d :: ds) 0 with
      | none => Except.error "invalid digit found in string"
      | some v =>
        if isNeg then
          if (v : Int) ≤ 2147483648 then
            Except.ok (-(v : Int))
          else
            Except.error "number too small to fit in target type"
        else
          if (v : Int) ≤ 2147483647 then
            Except.ok (v : Int)
          else
            Except.error "number too large to fit in target type"

/-- Model of `struct FakeNode { id: i32 }` from the repository's test module. -/
structure FakeNode where
  id : Int
  deriving Repr, DecidableEq

/-- The `RelayConnectionNode` impl for `FakeNode`: the cursor is the
`id` field, of cursor type `i32`. -/
def FakeNode.node : RelayConnectionNode FakeNode Int :=
  { cursor := fun n => n.id
    toString := i32ToString
    fromStr := i32FromStr
    connection_type_name := "FakeNodeConnection"
    edge_type_name := "FakeNodeConnectionEdge" }

/-- A node type admitted by the `RelayConnectionNode` contract whose
cursor `FromStr` does not invert its `ToString`: the trait's bounds
(`ToString + FromStr + Clone`) are purely operational and do not enforce
the round-trip law. -/
def badNode : RelayConnectionNode Int Int :=
  { cursor := fun n => n
    toString := fun _ => ""
    fromStr := fun _ => Except.ok 0
    connection_type_name := "BadConnection"
    edge_type_name := "BadConnectionEdge" }

example : RelayConnection.closure_args FakeNode.node (some 42) (some "8") none =
    Except.ok (some 8, none, some 43) := by decide

example : RelayConnection.closure_args FakeNode.node none none (some "95") =
    Except.ok (none, some 95, none) := by decide

example : RelayConnection.closure_args FakeNode.node none (some "foo") none =
    Except.error "invalid digit found in string" := by decide

example : i32ToString (-12) = "-12" := by decide

example : i32FromStr "-2147483648" = Except.ok (-2147483648) := by decide

/-! ## Helper lemmas about the monadic plumbing and the integer model -/

@[simp]
theorem except_ok_bind {α β : Type} (a : α) (f : α → Except String β) :
    (Except.ok a >>= f) = f a := rfl

@[simp]
theorem except_error_bind {α β : Type} (e : String) (f : α → Except String β) :
    ((Except.error e : Except String α) >>= f) = Except.error e := rfl

@[simp]
theorem except_pure_eq {α : Type} (a : α) :
    (pure a : Except String α) = Except.ok a := rfl

@[simp]
theorem option_mapM_none {α β : Type} (f : α → Except String β) :
    Option.mapM f none = Except.ok none := rfl

@[simp]
theorem option_mapM_some {α β : Type} (f : α → Except String β) (a : α) :
    Option.mapM f (some a) = (f a >>= fun b => pure (some b)) := rfl

theorem leq_zero_of_nonneg {v : Int} (h : 0 ≤ v) : leq_zero v = Except.ok v := by
  simp only [leq_zero, if_neg (show ¬v < 0 by omega)]

theorem leq_zero_of_neg {v : Int} (h : v < 0) :
    leq_zero v = Except.error "Pagination argument must be positive" := by
  simp only [leq_zero, if_pos h]

theorem usize_to_i64_of_le {n : Nat} (h : n ≤ 2 ^ 63 - 1) :
    usize_to_i64 n = Except.ok (n : Int) := by
  simp only [usize_to_i64, if_pos h]

theorem i64_to_usize_of_nonneg {v : Int} (h : 0 ≤ v) :
    i64_to_usize v = Except.ok v.toNat := by
  simp only [i64_to_usize, if_neg (show ¬v < 0 by omega)]

theorem i64_wrap_of_bounds {v : Int} (h0 : -(2 ^ 63) ≤ v) (h1 : v < 2 ^ 63) :
    i64_wrap v = v := by
  unfold i64_wrap
  rw [Int.emod_eq_of_lt (by omega) (by omega)]
  omega

/-- Success-shape of `build_connection`: with a candidate length within
`i64` range and validated (non-negative) `first`/`last`, no conversion
fails, and the result is the windowed edge list together with the raw
page flags. -/
theorem build_connection_ok {N C : Type} (inst : RelayConnectionNode N C)
    (first last : Option Int) (edges : List N)
    (hn : edges.length ≤ 2 ^ 63 - 1)
    (hf : ∀ f ∈ first, 0 ≤ f) (hl : ∀ l ∈ last, 0 ≤ l) :
    RelayConnection.build_connection inst first last edges =
      Except.ok
        { edges :=
            ((edges.take (first.getD (edges.length : Int)).toNat).drop
                (max 0 (min (edges.length : Int)
                    (first.getD (edges.length : Int)) -
                  last.getD (edges.length : Int))).toNat).map
              (fun node => { cursor := inst.toString (inst.cursor node), node })
          page_info :=
            { has_previous_page :=
                match last with
                | some l => decide ((edges.length : Int) > l)
                | none => false
              has_next_page :=
                match first with
                | some f => decide ((edges.length : Int) > f)
                | none => false
              start_cursor :=
                (((edges.take (first.getD (edges.length : Int)).toNat).drop
                    (max 0 (min (edges.length : Int)
                        (first.getD (edges.length : Int)) -
                      last.getD (edges.length : Int))).toNat).map
                  (fun node =>
                    ({ cursor := inst.toString (inst.cursor node), node } :
                      RelayConnectionEdge N))).head?.map
                  (fun edge => edge.cursor)
              end_cursor :=
                (((edges.take (first.getD (edges.length : Int)).toNat).drop
                    (max 0 (min (edges.length : Int)
                        (first.getD (edges.length : Int)) -
                      last.getD (edges.length : Int))).toNat).map
                  (fun node =>
                    ({ cursor := inst.toString (inst.cursor node), node } :
                      RelayConnectionEdge N))).getLast?.map
                  (fun edge => edge.cursor) } } := by
  have hF : (0 : Int) ≤ first.getD (edges.length : Int) := by
    rcases first with _ | f
    · exact Int.natCast_nonneg _
    · exact hf f rfl
  have hskip : (0 : Int) ≤ max 0 (min (edges.length : Int)
      (first.getD (edges.length : Int)) - last.getD (edges.length : Int)) :=
    le_max_left 0 _
  simp only [RelayConnection.build_connection, usize_to_i64_of_le hn,
    except_ok_bind, i64_to_usize_of_nonneg hF, i64_to_usize_of_nonneg hskip]
  rcases last with _ | l <;> rcases first with _ | f <;> rfl

/-! ## The claims -/

theorem take_min_length {α : Type} (l : List α) (k : Nat) :
    l.take k = l.take (min l.length k) := by
  rcases le_total l.length k with h | h
  · rw [min_eq_left h, List.take_of_length_le h,
      List.take_of_length_le (le_refl _)]
  · rw [min_eq_right h]

/-- C1: the windowing step keeps exactly the records obtained by first
truncating the candidates to `takeCount = min(n, effFirst)` elements
from the head (`effFirst = first`, or `n` when `first` is absent) and
then dropping the leading `skipCount = max(0, takeCount - effLast)`
elements (`effLast = last`, or `n` when `last` is absent). -/
theorem build_connection_windowing {N C : Type} (inst : RelayConnectionNode N C)
    (first last : Option Int) (edges : List N)
    (hn : edges.length ≤ 2 ^ 63 - 1)
    (hf : ∀ f ∈ first, 0 ≤ f) (hl : ∀ l ∈ last, 0 ≤ l) :
    (RelayConnection.build_connection inst first last edges).map
        (fun conn => conn.edges.map (fun e => e.node)) =
      Except.ok
        ((edges.take
            (min (edges.length : Int)
              (first.getD (edges.length : Int))).toNat).drop
          (max 0 (min (edges.length : Int) (first.getD (edges.length : Int)) -
            last.getD (edges.length : Int))).toNat) := by
  have hF : (0 : Int) ≤ first.getD (edges.length : Int) := by
    rcases first with _ | f
    · exact Int.natCast_nonneg _
    · exact hf f rfl
  rw [build_connection_ok inst first last edges hn hf hl]
  simp only [Except.map, List.map_map]
  have hid : ((fun e : RelayConnectionEdge N => e.node) ∘
      (fun node =>
        ({ cursor := inst.toString (inst.cursor node), node } :
          RelayConnectionEdge N))) = id := rfl
  rw [hid, List.map_id]
  congr 2
  rw [take_min_length edges (first.getD (edges.length : Int)).toNat]
  congr 1
  omega

/-- C1 witness: Scenario C — `first = 2`, `last = 1`, candidates
`[1,2,3,4]` — keeps only the record with cursor `2`. -/
theorem build_connection_windowing_witness :
    (RelayConnection.build_connection FakeNode.node (some 2) (some 1)
          [⟨1⟩, ⟨2⟩, ⟨3⟩, ⟨4⟩]).map
        (fun conn => conn.edges.map (fun e => e.node)) =
      Except.ok [⟨2⟩] :=
  (build_connection_windowing FakeNode.node (some 2) (some 1)
      [⟨1⟩, ⟨2⟩, ⟨3⟩, ⟨4⟩] (by decide) (by decide) (by decide)).trans (by decide)

/-- C9: every successfully built connection's edges are a contiguous,
order-preserving infix of the candidate list (witnessed by a prefix and
a suffix), every edge's cursor text is the `ToString` rendering of its
node's cursor, and the edge count is bounded by `first` and by `last`
whenever those are present. -/
theorem build_connection_edge_invariants {N C : Type}
    (inst : RelayConnectionNode N C) (first last : Option Int)
    (edges : List N) (conn : RelayConnection N)
    (hn : edges.length ≤ 2 ^ 63 - 1)
    (hf : ∀ f ∈ first, 0 ≤ f) (hl : ∀ l ∈ last, 0 ≤ l)
    (h : RelayConnection.build_connection inst first last edges =
        Except.ok conn) :
    (∃ pre suf, edges = pre ++ conn.edges.map (fun e => e.node) ++ suf) ∧
      (∀ e ∈ conn.edges, e.cursor = inst.toString (inst.cursor e.node)) ∧
      (∀ f ∈ first, (conn.edges.length : Int) ≤ f) ∧
      (∀ l ∈ last, (conn.edges.length : Int) ≤ l) := by
  have hF : (0 : Int) ≤ first.getD (edges.length : Int) := by
    rcases first with _ | f
    · exact Int.natCast_nonneg _
    · exact hf f rfl
  rw [build_connection_ok inst first last edges hn hf hl] at h
  injection h with h
  subst h
  have hid : ((fun e : RelayConnectionEdge N => e.node) ∘
      (fun node =>
        ({ cursor := inst.toString (inst.cursor node), node } :
          RelayConnectionEdge N))) = id := rfl
  refine ⟨⟨(edges.take (first.getD (edges.length : Int)).toNat).take
      (max 0 (min (edges.length : Int) (first.getD (edges.length : Int)) -
        last.getD (edges.length : Int))).toNat,
      edges.drop (first.getD (edges.length : Int)).toNat, ?_⟩, ?_, ?_, ?_⟩
  · dsimp only
    rw [List.map_map, hid, List.map_id, List.take_append_drop,
      List.take_append_drop]
  · intro e he
    dsimp only at he
    rw [List.mem_map] at he
    obtain ⟨x, hx, rfl⟩ := he
    rfl
  · intro f hfm
    rw [Option.mem_def] at hfm
    subst hfm
    dsimp only
    simp only [List.length_map, List.length_drop, List.length_take,
      Option.getD_some]
    have h0 := hf f rfl
    omega
  · intro l hlm
    rw [Option.mem_def] at hlm
    subst hlm
    dsimp only
    simp only [List.length_map, List.length_drop, List.length_take,
      Option.getD_some]
    have h0 := hl l rfl
    omega

/-- C9 witness: Scenario B — `last = 2` over `[1,2,3]` — satisfies all
four invariants; the surviving nodes `[2,3]` sit between prefix `[1]`
and an empty suffix. -/
theorem build_connection_edge_invariants_witness :
    (∃ pre suf, [(⟨1⟩ : FakeNode), ⟨2⟩, ⟨3⟩] =
        pre ++ (RelayConnection.mk
            [{ node := ⟨2⟩, cursor := "2" }, { node := ⟨3⟩, cursor := "3" }]
            { has_previous_page := true, has_next_page := false,
              start_cursor := some "2",
              end_cursor := some "3" }).edges.map (fun e => e.node) ++ suf) ∧
      (∀ e ∈ (RelayConnection.mk
          [{ node := (⟨2⟩ : FakeNode), cursor := "2" },
            { node := ⟨3⟩, cursor := "3" }]
          { has_previous_page := true, has_next_page := false,
            start_cursor := some "2", end_cursor := some "3" }).edges,
        e.cursor = FakeNode.node.toString (FakeNode.node.cursor e.node)) ∧
      (∀ f ∈ (none : Option Int),
        ((RelayConnection.mk
            [{ node := (⟨2⟩ : FakeNode), cursor := "2" },
              { node := ⟨3⟩, cursor := "3" }]
            { has_previous_page := true, has_next_page := false,
              start_cursor := some "2",
              end_cursor := some "3" }).edges.length : Int) ≤ f) ∧
      (∀ l ∈ (some 2 : Option Int),
        ((RelayConnection.mk
            [{ node := (⟨2⟩ : FakeNode), cursor := "2" },
              { node := ⟨3⟩, cursor := "3" }]
            { has_previous_page := true, has_next_page := false,
              start_cursor := some "2",
              end_cursor := some "3" }).edges.length : Int) ≤ l) :=
  build_connection_edge_invariants FakeNode.node none (some 2)
    [⟨1⟩, ⟨2⟩, ⟨3⟩] _ (by decide) (by decide) (by decide) (by decide)

/-- C2: the built page info has
`hasPreviousPage = (last is present and n > last)` and
`hasNextPage = (first is present and n > first)`, where `n` is the raw
candidate length before any windowing; with both arguments absent both
flags are `false` (`Option.elim false` encodes "present and ..."). -/
theorem build_connection_page_flags {N C : Type} (inst : RelayConnectionNode N C)
    (first last : Option Int) (edges : List N)
    (hn : edges.length ≤ 2 ^ 63 - 1)
    (hf : ∀ f ∈ first, 0 ≤ f) (hl : ∀ l ∈ last, 0 ≤ l) :
    (RelayConnection.build_connection inst first last edges).map
        (fun conn =>
          (conn.page_info.has_previous_page, conn.page_info.has_next_page)) =
      Except.ok
        (last.elim false (fun l => decide (l < (edges.length : Int))),
          first.elim false (fun f => decide (f < (edges.length : Int)))) := by
  rw [build_connection_ok inst first last edges hn hf hl]
  rcases last with _ | l <;> rcases first with _ | f <;>
    simp [Except.map, Option.elim]

/-- C2 witness: Scenario C's raw flags — `first = 2`, `last = 1`,
four candidates — are both `true`, although only one edge survives. -/
theorem build_connection_page_flags_witness :
    (RelayConnection.build_connection FakeNode.node (some 2) (some 1)
          [⟨1⟩, ⟨2⟩, ⟨3⟩, ⟨4⟩]).map
        (fun conn =>
          (conn.page_info.has_previous_page, conn.page_info.has_next_page)) =
      Except.ok (true, true) :=
  (build_connection_page_flags FakeNode.node (some 2) (some 1)
      [⟨1⟩, ⟨2⟩, ⟨3⟩, ⟨4⟩] (by decide) (by decide) (by decide)).trans (by decide)

/-- C6: an empty candidate list yields the empty connection — zero
edges, both flags `false`, both cursors absent — for every validated
combination of `first`/`last`. -/
theorem build_connection_empty_input {N C : Type} (inst : RelayConnectionNode N C)
    (first last : Option Int)
    (hf : ∀ f ∈ first, 0 ≤ f) (hl : ∀ l ∈ last, 0 ≤ l) :
    RelayConnection.build_connection inst first last ([] : List N) =
      Except.ok
        { edges := []
          page_info :=
            { has_previous_page := false
              has_next_page := false
              start_cursor := none
              end_cursor := none } } := by
  rw [build_connection_ok inst first last [] (by simp) hf hl]
  rcases last with _ | l <;> rcases first with _ | f
  · simp
  · have h1 := hf f rfl
    simp only [Except.ok.injEq, RelayConnection.mk.injEq,
      RelayConnectionPageInfo.mk.injEq]
    simp
    omega
  · have h1 := hl l rfl
    simp
    omega
  · have h1 := hf f rfl
    have h2 := hl l rfl
    simp
    constructor <;> omega

/-- C6 witness: a concrete validated combination (`first = 5`,
`last = 0`) over the empty list. -/
theorem build_connection_empty_input_witness :
    RelayConnection.build_connection FakeNode.node (some 5) (some 0)
        ([] : List FakeNode) =
      Except.ok
        { edges := []
          page_info :=
            { has_previous_page := false
              has_next_page := false
              start_cursor := none
              end_cursor := none } } :=
  build_connection_empty_input FakeNode.node (some 5) (some 0)
    (by decide) (by decide)

/-- C3: for every negative `first` or `last` argument, `RelayConnection::new`
and `RelayConnection::new_async` fail with the message
"Pagination argument must be positive", and the result does not depend on
the loader closure — in this pure embedding, independence from every
possible loader is exactly the statement that the loader is never
invoked. -/
theorem new_rejects_negative {N C : Type} (inst : RelayConnectionNode N C)
    (first last : Option Int) (after before : Option String)
    (hneg : (∃ f ∈ first, f < 0) ∨ (∃ l ∈ last, l < 0)) :
    (∀ load, RelayConnection.new inst first after last before load =
        Except.error "Pagination argument must be positive") ∧
    (∀ load, RelayConnection.new_async inst first after last before load =
        Except.error "Pagination argument must be positive") := by
  have main : ∀ load : Option C → Option C → Option Int → FieldResult (List N),
      RelayConnection.new inst first after last before load =
        Except.error "Pagination argument must be positive" := by
    intro load
    rcases hneg with ⟨f, hf, hfneg⟩ | ⟨l, hl, hlneg⟩
    · rw [Option.mem_def] at hf
      subst hf
      simp [RelayConnection.new, leq_zero_of_neg hfneg]
    · rw [Option.mem_def] at hl
      subst hl
      rcases first with _ | f
      · simp [RelayConnection.new, leq_zero_of_neg hlneg]
      · rcases lt_or_le f 0 with hf | hf
        · simp [RelayConnection.new, leq_zero_of_neg hf]
        · simp [RelayConnection.new, leq_zero_of_nonneg hf, leq_zero_of_neg hlneg]
  exact ⟨main, fun load => main load⟩

/-- C3 witness: `first = Some(-1)` is rejected for a concrete loader. -/
theorem new_rejects_negative_witness :
    RelayConnection.new FakeNode.node (some (-1)) none none none
        (fun _ _ _ => Except.ok [⟨7⟩]) =
      Except.error "Pagination argument must be positive" :=
  (new_rejects_negative FakeNode.node (some (-1)) none none none
      (Or.inl ⟨-1, rfl, by decide⟩)).1 (fun _ _ _ => Except.ok [⟨7⟩])

/-- C5: whenever `closure_args` succeeds (so the loader is about to be
invoked with its result), the limit component is `first.map (+1)` —
`Some(first + 1)` when `first` is present and `None` when it is absent —
for `first` values in the `i32` range that `new`/`new_async` widen from;
`last` is not consulted at all (`closure_args` does not receive it). -/
theorem closure_args_limit {N C : Type} (inst : RelayConnectionNode N C)
    (first : Option Int) (after before : Option String)
    (a b : Option C) (lim : Option Int)
    (hf : ∀ f ∈ first, -2147483648 ≤ f ∧ f ≤ 2147483647)
    (h : RelayConnection.closure_args inst first after before =
        Except.ok (a, b, lim)) :
    lim = first.map (fun f => f + 1) := by
  rcases ha : after.mapM inst.fromStr with e | a'
  · simp [RelayConnection.closure_args, ha] at h
  rcases hb : before.mapM inst.fromStr with e | b'
  · simp [RelayConnection.closure_args, ha, hb] at h
  · have h' : (Except.ok (a', b', first.map (fun l => i64_add l 1)) :
        FieldResult (Option C × Option C × Option Int)) = Except.ok (a, b, lim) := by
      rw [← h]
      simp [RelayConnection.closure_args, ha, hb]
    have hlim : first.map (fun l => i64_add l 1) = lim := by
      injection h' with h''
      exact congrArg (fun t => t.2.2) h''
    rw [← hlim]
    rcases first with _ | f
    · rfl
    · obtain ⟨hlo, hhi⟩ := hf f rfl
      simp [i64_add, i64_wrap_of_bounds (v := f + 1) (by omega) (by omega)]

/-- C5 witness: `first = Some(42)` yields limit `Some(43)` (the
repository's own smoke-test input, with `after = "8"` decoded to `8`). -/
theorem closure_args_limit_witness :
    (some 43 : Option Int) = (some 42 : Option Int).map (fun f => f + 1) :=
  closure_args_limit FakeNode.node (some 42) (some "8") none
    (some 8) none (some 43) (by decide) (by decide)

/-- C7: `new` and `new_async` agree on every input whenever their loaders
agree pointwise: validation, cursor decoding, limit derivation and
windowing are the same code path, and the await of the async loader is
the identity in the pure embedding. -/
theorem new_eq_new_async {N C : Type} (inst : RelayConnectionNode N C)
    (first : Option Int) (after : Option String) (last : Option Int)
    (before : Option String)
    (load₁ load₂ : Option C → Option C → Option Int → FieldResult (List N))
    (h : ∀ a b l, load₁ a b l = load₂ a b l) :
    RelayConnection.new inst first after last before load₁ =
      RelayConnection.new_async inst first after last before load₂ := by
  have hload : load₁ = load₂ := funext fun a => funext fun b => funext fun l => h a b l
  rw [hload]
  rfl

/-- C7 witness: the two entry points agree on a concrete request. -/
theorem new_eq_new_async_witness :
    RelayConnection.new FakeNode.node (some 1) none (some 1) none
        (fun _ _ _ => Except.ok [⟨1⟩, ⟨2⟩]) =
      RelayConnection.new_async FakeNode.node (some 1) none (some 1) none
        (fun _ _ _ => Except.ok [⟨1⟩, ⟨2⟩]) :=
  new_eq_new_async FakeNode.node (some 1) none (some 1) none _ _
    (fun _ _ _ => rfl)

/-- C10: for every admissible 32-bit `first` (`0 ≤ first ≤ 2147483647`,
the `i32` maximum), `new` hands the loader the limit `Some(first + 1)`
exactly, with no wrap-around: the argument is widened to `i64` before
`closure_args` adds one, and `i64` addition cannot overflow there. -/
theorem new_limit_exact {N C : Type} (inst : RelayConnectionNode N C)
    (f : Int) (h0 : 0 ≤ f) (h1 : f ≤ 2147483647)
    (load : Option C → Option C → Option Int → FieldResult (List N)) :
    RelayConnection.new inst (some f) none none none load =
      (load none none (some (f + 1)) >>= fun edges =>
        RelayConnection.build_connection inst (some f) none edges) := by
  simp [RelayConnection.new, RelayConnection.closure_args,
    leq_zero_of_nonneg h0, i64_add,
    i64_wrap_of_bounds (v := f + 1) (by omega) (by omega)]

/-- C4: when the `after` text fails to parse (or `after` is absent or
parses and the `before` text fails), with validated `first`/`last`,
`new` and `new_async` fail with the underlying parse error's textual
description `e`, and the result does not depend on the loader closure —
in this pure embedding, independence from every possible loader is
exactly the statement that the loader is never invoked. -/
theorem new_cursor_format_error {N C : Type} (inst : RelayConnectionNode N C)
    (first last : Option Int) (after before : Option String) (e : String)
    (hf : ∀ f ∈ first, 0 ≤ f) (hl : ∀ l ∈ last, 0 ≤ l)
    (herr : after.mapM inst.fromStr = Except.error e ∨
      ((∃ a, after.mapM inst.fromStr = Except.ok a) ∧
        before.mapM inst.fromStr = Except.error e)) :
    (∀ load, RelayConnection.new inst first after last before load =
        Except.error e) ∧
    (∀ load, RelayConnection.new_async inst first after last before load =
        Except.error e) := by
  have hfirst : first.mapM leq_zero = Except.ok first := by
    rcases first with _ | f
    · rfl
    · simp [leq_zero_of_nonneg (hf f rfl)]
  have hlast : last.mapM leq_zero = Except.ok last := by
    rcases last with _ | l
    · rfl
    · simp [leq_zero_of_nonneg (hl l rfl)]
  have hca : RelayConnection.closure_args inst first after before =
      Except.error e := by
    rcases herr with ha | ⟨⟨a, ha⟩, hb⟩
    · simp [RelayConnection.closure_args, ha]
    · simp [RelayConnection.closure_args, ha, hb]
  have main : ∀ load : Option C → Option C → Option Int → FieldResult (List N),
      RelayConnection.new inst first after last before load =
        Except.error e := by
    intro load
    simp [RelayConnection.new, hfirst, hlast, hca]
  exact ⟨main, fun load => main load⟩

/-- C4 witness: Scenario D — `after = "foo"` against the integer cursor
type fails with the parse error's description, for a concrete loader. -/
theorem new_cursor_format_error_witness :
    RelayConnection.new FakeNode.node none (some "foo") none none
        (fun _ _ _ => Except.ok [⟨1⟩]) =
      Except.error "invalid digit found in string" :=
  (new_cursor_format_error FakeNode.node none none (some "foo") none
      "invalid digit found in string" (by decide) (by decide)
      (Or.inl (by decide))).1 (fun _ _ _ => Except.ok [⟨1⟩])

/-- C10 witness: at the `i32` maximum `2147483647` the loader receives
limit `Some(2147483648)`. -/
theorem new_limit_exact_witness :
    RelayConnection.new FakeNode.node (some 2147483647) none none none
        (fun _ _ _ => Except.ok ([] : List FakeNode)) =
      (Except.ok ([] : List FakeNode) >>= fun edges =>
        RelayConnection.build_connection FakeNode.node (some 2147483647) none
          edges) :=
  new_limit_exact FakeNode.node 2147483647 (by decide) (by decide) _

/-! ## The cursor round-trip law (C8)

The decimal codec lemmas below establish that for the `i32` cursor type
— the one the repository's node implementations actually use — parsing
inverts rendering. The trait itself does not enforce this law (see
`badNode`). -/

theorem digitVal_digitChar : ∀ d, d < 10 → digitVal (Nat.digitChar d) = some d := by
  decide

theorem digitChar_bounds :
    ∀ d, d < 10 → '0' ≤ Nat.digitChar d ∧ Nat.digitChar d ≤ '9' := by
  decide

theorem parseNatDigits_append (xs ys : List Char) (acc v : Nat)
    (h : parseNatDigits xs acc = some v) :
    parseNatDigits (xs ++ ys) acc = parseNatDigits ys v := by
  induction xs generalizing acc with
  | nil =>
    simp only [parseNatDigits] at h
    injection h with h
    subst h
    rfl
  | cons c restx ih =>
    simp only [parseNatDigits, List.cons_append] at h ⊢
    cases hd : digitVal c with
    | none => rw [hd] at h; exact absurd h (by simp)
    | some d => rw [hd] at h; exact ih _ h

theorem parse_natDecimalDigitsGo :
    ∀ fuel n acc, n < fuel →
      parseNatDigits (natDecimalDigitsGo fuel n) acc =
        some (acc * 10 ^ (natDecimalDigitsGo fuel n).length + n) := by
  intro fuel
  induction fuel with
  | zero => intro n acc h; omega
  | succ fuel ih =>
    intro n acc h
    by_cases h10 : n < 10
    · simp only [natDecimalDigitsGo, if_pos h10, parseNatDigits,
        digitVal_digitChar n h10, List.length_cons, List.length_nil]
      norm_num
    · have hlt : n / 10 < n := Nat.div_lt_self (by omega) (by omega)
      have hrec : n / 10 < fuel := by omega
      simp only [natDecimalDigitsGo, if_neg h10]
      rw [parseNatDigits_append _ _ _ _ (ih (n / 10) acc hrec)]
      have hd : n % 10 < 10 := Nat.mod_lt _ (by omega)
      simp only [parseNatDigits, digitVal_digitChar _ hd, List.length_append,
        List.length_cons, List.length_nil]
      congr 1
      have hdm := Nat.div_add_mod n 10
      ring_nf
      omega

theorem mem_natDecimalDigitsGo :
    ∀ fuel n c, n < fuel → c ∈ natDecimalDigitsGo fuel n →
      '0' ≤ c ∧ c ≤ '9' := by
  intro fuel
  induction fuel with
  | zero => intro n c h; omega
  | succ fuel ih =>
    intro n c h hc
    by_cases h10 : n < 10
    · simp only [natDecimalDigitsGo, if_pos h10, List.mem_singleton] at hc
      subst hc
      exact digitChar_bounds n h10
    · simp only [natDecimalDigitsGo, if_neg h10, List.mem_append,
        List.mem_singleton] at hc
      have hlt : n / 10 < n := Nat.div_lt_self (by omega) (by omega)
      rcases hc with hc | hc
      · exact ih (n / 10) c (by omega) hc
      · subst hc
        exact digitChar_bounds _ (Nat.mod_lt _ (by omega))

theorem natDecimalDigits_ne_nil (n : Nat) : natDecimalDigits n ≠ [] := by
  unfold natDecimalDigits natDecimalDigitsGo
  split
  · simp
  · simp

theorem parse_natDecimalDigits (n : Nat) :
    parseNatDigits (natDecimalDigits n) 0 = some n := by
  have h := parse_natDecimalDigitsGo (n + 1) n 0 (by omega)
  simpa [natDecimalDigits] using h

theorem mem_natDecimalDigits {n : Nat} {c : Char}
    (hc : c ∈ natDecimalDigits n) : '0' ≤ c ∧ c ≤ '9' :=
  mem_natDecimalDigitsGo (n + 1) n c (by omega) hc

theorem i32FromStr_digits (c : Char) (rest : List Char) (n : Nat)
    (hc : '0' ≤ c ∧ c ≤ '9')
    (hparse : parseNatDigits (c :: rest) 0 = some n)
    (hle : (n : Int) ≤ 2147483647) :
    i32FromStr (String.mk (c :: rest)) = Except.ok (n : Int) := by
  have hcm : c ≠ '-' := by
    intro h; subst h; revert hc; decide
  have hcp : c ≠ '+' := by
    intro h; subst h; revert hc; decide
  unfold i32FromStr
  split
  · next heq => simp at heq
  · next cs heq =>
    simp only
    split
    · next heq2 =>
      split at heq2
      · next hr => injection hr with h1 _; exact absurd h1 hcm
      · next hr => injection hr with h1 _; exact absurd h1 hcp
      · injection heq2 with h1 h2; exact absurd h2 (by simp)
    · next isNeg d ds heq2 =>
      split at heq2
      · next hr => injection hr with h1 _; exact absurd h1 hcm
      · next hr => injection hr with h1 _; exact absurd h1 hcp
      · injection heq2 with h1 h2
        rw [← h2, hparse, ← h1]
        simp [hle]

theorem i32FromStr_neg_digits (c : Char) (rest : List Char) (n : Nat)
    (hparse : parseNatDigits (c :: rest) 0 = some n)
    (hle : (n : Int) ≤ 2147483648) :
    i32FromStr (String.mk ('-' :: c :: rest)) = Except.ok (-(n : Int)) := by
  unfold i32FromStr
  split
  · next heq => simp at heq
  · next cs heq =>
    simp only
    split
    · next heq2 =>
      rw [hparse] at heq2
      exact absurd heq2 (by simp)
    · next v heq2 =>
      rw [hparse] at heq2
      injection heq2 with h
      subst h
      simp [hle]

/-- C8 counterexample: the round-trip law does not hold for every cursor
type the `RelayConnectionNode` trait admits — `badNode`'s operations
satisfy the trait's bounds, yet parsing the rendering of cursor `1`
yields `Ok 0`, not `Ok 1`. -/
theorem trait_roundtrip_fails :
    badNode.fromStr (badNode.toString 1) ≠ Except.ok 1 := by
  decide

/-- C8 (amended): the round-trip law holds for the `i32` cursor type the
repository's node implementations use (`FakeNode` in the tests, `Foo` in
the doc example): for every `i32` value `c`, parsing the `ToString`
rendering of `c` yields `Ok c`. -/
theorem fakeNode_cursor_roundtrip (v : Int)
    (h0 : -2147483648 ≤ v) (h1 : v ≤ 2147483647) :
    FakeNode.node.fromStr (FakeNode.node.toString v) = Except.ok v := by
  show i32FromStr (i32ToString v) = Except.ok v
  unfold i32ToString
  rcases lt_or_le v 0 with hneg | hpos
  · rw [if_pos hneg]
    rcases hcs : natDecimalDigits v.natAbs with _ | ⟨c, rest⟩
    · exact absurd hcs (natDecimalDigits_ne_nil _)
    · have hparse : parseNatDigits (c :: rest) 0 = some v.natAbs := by
        rw [← hcs]
        exact parse_natDecimalDigits _
      rw [i32FromStr_neg_digits c rest v.natAbs hparse (by omega)]
      congr 1
      omega
  · rw [if_neg (by omega)]
    rcases hcs : natDecimalDigits v.toNat with _ | ⟨c, rest⟩
    · exact absurd hcs (natDecimalDigits_ne_nil _)
    · have hparse : parseNatDigits (c :: rest) 0 = some v.toNat := by
        rw [← hcs]
        exact parse_natDecimalDigits _
      have hc : '0' ≤ c ∧ c ≤ '9' := by
        apply mem_natDecimalDigits (n := v.toNat)
        rw [hcs]
        exact List.mem_cons_self c rest
      rw [i32FromStr_digits c rest v.toNat hc hparse (by omega)]
      congr 1
      omega

/-- C8 witness: the round-trip at the concrete cursor `-42`. -/
theorem fakeNode_cursor_roundtrip_witness :
    FakeNode.node.fromStr (FakeNode.node.toString (-42)) = Except.ok (-42) :=
  fakeNode_cursor_roundtrip (-42) (by decide) (by decide)
